import Mathlib

/-!
Verification of the Contoso sales agent chat client (`src/workshop/main.py`)
against its natural-language specification.

The program is sequential glue around a remote agent SDK.  We shallowly embed
the locally-decidable parts of the program: the module-level environment
reads, the `initialize` routine (placeholder substitution, instructions-file
check, the argument record passed to the remote agent-creation call), the
`cleanup` routine (two try/except-AttributeError blocks), `post_message`
(catch-all per-turn error handling), and the interactive `main` loop
(exit/empty-line handling).  Remote SDK calls are modelled by their outcomes,
supplied as explicit parameters, and the filesystem and process environment
are modelled as explicit data.
-/

/-- Python exception values, as far as this program distinguishes them:
`except AttributeError` in `cleanup` treats `AttributeError` specially,
`os.environ[...]` raises `KeyError`, `initialize` raises
`FileNotFoundError` and `RuntimeError`; everything else is `other`. -/
inductive PyExc where
  | attributeError : PyExc
  | keyError : String → PyExc
  | fileNotFoundError : String → PyExc
  | runtimeError : String → PyExc
  | other : String → PyExc
deriving DecidableEq

/-- The left-brace character, written by code. -/
def lbrace : Char := '\x7b'

/-- Fuel-driven worker for Python `str.replace`: scan `s` left to right; at
each position, if `pat` is a prefix, emit `rep` and continue after the
consumed occurrence (the replacement text is not rescanned), otherwise emit
one character. `fuel ≥ s.length` suffices for nonempty `pat`. -/
def replaceGo (pat rep : List Char) : Nat → List Char → List Char
  | _, [] => []
  | 0, s => s
  | Nat.succ fuel, c :: t =>
    if pat.isPrefixOf (c :: t) then rep ++ replaceGo pat rep fuel ((c :: t).drop pat.length)
    else c :: replaceGo pat rep fuel t

/-- Python `s.replace(pat, rep)` on character lists (for nonempty `pat`):
replaces every non-overlapping occurrence, leftmost first. -/
def replaceAll (s pat rep : List Char) : List Char :=
  replaceGo pat rep s.length s

/-- Python `str.replace` on strings, as used in `initialize`. -/
def pyReplace (s pat rep : String) : String :=
  String.mk (replaceAll s.data pat.data rep.data)

/-- The schema placeholder token `"{database_schema_string}"` replaced at
`main.py:108`. -/
def dbSchemaPlaceholder : String := "\x7bdatabase_schema_string\x7d"

/-- The date placeholder token `"{current_date}"` replaced at `main.py:109`. -/
def currentDatePlaceholder : String := "\x7bcurrent_date\x7d"

/-- ASCII digit character for `n < 10`. -/
def digitChar (n : Nat) : Char := Char.ofNat (48 + n)

/-- Fuel-driven decimal rendering accumulator (least significant digit
first into `acc`). -/
def natStrGo : Nat → Nat → List Char → List Char
  | 0, _, acc => acc
  | Nat.succ fuel, n, acc =>
    if n = 0 then acc else natStrGo fuel (n / 10) (digitChar (n % 10) :: acc)

/-- Decimal rendering of a natural number. -/
def natStr (n : Nat) : List Char :=
  if n = 0 then ['0'] else natStrGo n n []

/-- Zero-pad a decimal rendering to width `w`. -/
def padNum (w n : Nat) : List Char :=
  List.replicate (w - (natStr n).length) '0' ++ natStr n

/-- Python `date(y, m, d).strftime("%Y-%m-%d")`: zero-padded
four-digit year, two-digit month and day, dash-separated. -/
def strftimeYmd (y m d : Nat) : String :=
  String.mk (padNum 4 y ++ '-' :: (padNum 2 m ++ '-' :: padNum 2 d))

/-- The instructions string built by `initialize` (`main.py:104-109`): the
template read from disk, with the schema placeholder replaced by the
database schema string and then the date placeholder replaced by today's
date formatted `"%Y-%m-%d"`. -/
def renderInstructions (template schemaStr : String) (y m d : Nat) : String :=
  pyReplace (pyReplace template dbSchemaPlaceholder schemaStr)
    currentDatePlaceholder (strftimeYmd y m d)

/-- Process environment lookup,`os.environ.get`. -/
def lookupEnv (e : List (String × String)) (k : String) : Option String :=
  match e.find? (fun p => p.fst == k) with
  | some p => some p.snd
  | none => none

/-- The module-level constants read from the environment
(`main.py:27-28`). -/
structure ModuleConsts where
  apiDeploymentName : Option String
  projectEndpoint : String
deriving DecidableEq

/-- Module import (`main.py:27-28`): `MODEL_DEPLOYMENT_NAME` is read with
`os.getenv` (absence gives `None`), while `PROJECT_ENDPOINT` is read with
`os.environ[...]`, which raises `KeyError` when absent, so the process
fails before `main` ever runs. -/
def moduleLoad (env : List (String × String)) : Except PyExc ModuleConsts :=
  match lookupEnv env "PROJECT_ENDPOINT" with
  | none => Except.error (PyExc.keyError "PROJECT_ENDPOINT")
  | some ep => Except.ok ⟨lookupEnv env "MODEL_DEPLOYMENT_NAME", ep⟩

/-- Sampling temperature, `main.py:32`. -/
def TEMPERATURE : ℚ := 0.1

/-- Top-p constant, `main.py:33`. -/
def TOP_P : ℚ := 0.1

/-- Prompt-token budget constant, `main.py:31`. -/
def MAX_PROMPT_TOKENS : Nat := 10240

/-- Completion-token budget constant, `main.py:30`. -/
def MAX_COMPLETION_TOKENS : Nat := 4096

/-- The keyword arguments of the `project_client.agents.create_agent` call
(`main.py:118-125`).  A field holding `none` means the keyword is not
passed in the call, leaving the remote default. -/
structure CreateAgentArgs where
  model : Option String
  name : String
  instructions : String
  temperature : Option ℚ
  top_p : Option ℚ
  max_prompt_tokens : Option Nat
  max_completion_tokens : Option Nat
deriving DecidableEq

/-- The locally observable state `initialize` runs against: the process
environment, whether the instructions file exists at its resolved path and
its content, the schema string returned by `sales_data.get_database_info()`,
whether `sales_data.conn` is set, and today's date. Remote SDK calls
(vector store, agent and thread creation) are not locally decidable and are
modelled as succeeding; the claims checked here concern the local logic. -/
structure ProcEnv where
  osEnv : List (String × String)
  instructionsFileIsFile : Bool
  instructionsContent : String
  schemaString : String
  dbConnAvailable : Bool
  todayY : Nat
  todayM : Nat
  todayD : Nat
deriving DecidableEq

deriving instance DecidableEq for Except

/-- Outcome of `initialize` (`main.py:83-142`): the `ENVIRONMENT` tag read
with default `"local"`, the result (the argument record of the agent-creation
call on success, the exception raised on failure), and the error messages
logged by the `except` block at `main.py:139-141`. -/
structure InitOutcome where
  envTag : String
  result : Except PyExc CreateAgentArgs
  loggedErrors : List String
deriving DecidableEq

/-- Shallow embedding of `initialize` (`main.py:83-142`).  Inside the `try`
block: read `ENVIRONMENT` with default `"local"`, raise `FileNotFoundError`
if the instructions file is missing, raise `RuntimeError` if the database
connection is unavailable, otherwise substitute the two placeholders into
the template and call `create_agent` with keyword arguments `model`, `name`,
`instructions`, `toolset` and `temperature` (and no `top_p`,
`max_prompt_tokens` or `max_completion_tokens`).  The `except` block logs
two messages and re-raises. -/
def initAgent (p : ProcEnv) (mc : ModuleConsts) : InitOutcome :=
  let envTag := (lookupEnv p.osEnv "ENVIRONMENT").getD "local"
  if p.instructionsFileIsFile = false then
    ⟨envTag, Except.error (PyExc.fileNotFoundError "Instructions file not found"),
      ["An error occurred initializing the agent: Instructions file not found",
       "Please ensure the instructions file exists and the database is accessible."]⟩
  else if p.dbConnAvailable = false then
    ⟨envTag,
      Except.error (PyExc.runtimeError
        "Database connection unavailable. Check SQLite DB path and permissions."),
      ["An error occurred initializing the agent: Database connection unavailable. Check SQLite DB path and permissions.",
       "Please ensure the instructions file exists and the database is accessible."]⟩
  else
    ⟨envTag,
      Except.ok
        ⟨mc.apiDeploymentName, "Contoso Sales AI Agent",
          renderInstructions p.instructionsContent p.schemaString p.todayY p.todayM p.todayD,
          some TEMPERATURE, none, none, none⟩,
      []⟩

/-- `try: X; except AttributeError: pass` applied to the outcome of a call:
`none` means execution continues past the statement, `some e` means the
exception `e` propagates. -/
def swallowAttr (r : Except PyExc Unit) : Option PyExc :=
  match r with
  | Except.ok _ => none
  | Except.error PyExc.attributeError => none
  | Except.error e => some e

/-- The four externally visible steps of `cleanup` (`main.py:145-158`). -/
inductive CStep where
  | delThread : CStep
  | delAgent : CStep
  | closeDb : CStep
  | closeClient : CStep
deriving DecidableEq

/-- Shallow embedding of `cleanup` (`main.py:145-158`), parametrised by the
outcomes of the two remote delete calls.  Returns the list of steps
attempted, in order, and the exception propagating out of `cleanup`
(`none` for a normal return).  Each delete sits in its own
`try ... except AttributeError: pass`; the database close and the client
close follow unguarded. -/
def pyCleanup (tDel aDel : Except PyExc Unit) : List CStep × Option PyExc :=
  match swallowAttr tDel with
  | some e => ([CStep.delThread], some e)
  | none =>
    match swallowAttr aDel with
    | some e => ([CStep.delThread, CStep.delAgent], some e)
    | none => ([CStep.delThread, CStep.delAgent, CStep.closeDb, CStep.closeClient], none)

/-- What one call to `post_message` (`main.py:161-180`) does, given the
outcomes of the message-create call and of draining the run stream. -/
structure PostOutcome where
  logged : List String
  raised : Option PyExc
deriving DecidableEq

/-- Rendering of an exception for the log line of `post_message`. -/
def pyExcMsg (e : PyExc) : String :=
  match e with
  | PyExc.attributeError => "AttributeError"
  | PyExc.keyError k => k
  | PyExc.fileNotFoundError m => m
  | PyExc.runtimeError m => m
  | PyExc.other m => m

/-- Shallow embedding of `post_message` (`main.py:161-180`): the whole body
sits in `try ... except Exception as e`, whose handler logs one purple
message and falls off the end, so no exception ever propagates.  The stream
is only drained when the message post succeeded. -/
def postMessage (createRes streamRes : Except PyExc Unit) : PostOutcome :=
  match createRes with
  | Except.error e =>
      ⟨["An error occurred posting the message: " ++ pyExcMsg e], none⟩
  | Except.ok _ =>
    match streamRes with
    | Except.error e =>
        ⟨["An error occurred posting the message: " ++ pyExcMsg e], none⟩
    | Except.ok _ => ⟨[], none⟩

/-- Python `str.lower()`, restricted to its ASCII behaviour (the only case
the loop's `"exit"` comparison distinguishes). -/
def pyLower (s : String) : String := String.mk (s.data.map Char.toLower)

/-- Shallow embedding of the `while True` loop of `main`
(`main.py:196-205`) applied to a list of input lines: returns the messages
posted, in order, and whether the loop terminated via the `exit` command.
Per iteration: break when `prompt.lower() == "exit"`, re-prompt on an empty
line, otherwise post the line (`post_message` never raises, see
`postMessage`) and continue.  An exhausted input list leaves the loop
blocked at the next `input()`, having posted what it posted. -/
def mainLoop : List String → List String × Bool
  | [] => ([], false)
  | p :: rest =>
    if pyLower p = "exit" then ([], true)
    else if p = "" then mainLoop rest
    else ((p :: (mainLoop rest).fst), (mainLoop rest).snd)

/-- Locally observable outcome of `main` (`main.py:183-207`). -/
structure MainOutcome where
  enteredLoop : Bool
  posted : List String
  exitedViaExit : Bool
  cleanupRun : Bool
  initFailureLogged : Bool
deriving DecidableEq

/-- Shallow embedding of the whole program run: module import (fails fast
when `PROJECT_ENDPOINT` is absent), then `main`: `initialize` inside
`try/except` (on failure the error is logged and `main` returns — the
interactive loop is never entered and there is no retry), then the loop
inside `try/finally` whose `finally` runs `cleanup` when the loop breaks. -/
def runProgram (p : ProcEnv) (inputs : List String) : Except PyExc MainOutcome :=
  match moduleLoad p.osEnv with
  | Except.error e => Except.error e
  | Except.ok mc =>
    match (initAgent p mc).result with
    | Except.error _ => Except.ok ⟨false, [], false, false, true⟩
    | Except.ok _ =>
      Except.ok ⟨true, (mainLoop inputs).fst, (mainLoop inputs).snd,
        (mainLoop inputs).snd, false⟩

/-- Concrete process environment used to instantiate hypotheses: endpoint
set, instructions file present, database connected. -/
def witnessEnv : ProcEnv :=
  ⟨[("PROJECT_ENDPOINT", "https://example"), ("MODEL_DEPLOYMENT_NAME", "gpt")],
    true, "Schema: \x7bdatabase_schema_string\x7d, Date: \x7bcurrent_date\x7d",
    "tbl(id)", true, 2024, 5, 1⟩

/-- Module constants matching `witnessEnv`. -/
def witnessConsts : ModuleConsts := ⟨some "gpt", "https://example"⟩

/-- Concrete process environment with an empty variable map. -/
def noEndpointEnv : ProcEnv := ⟨[], true, "", "", true, 2024, 1, 1⟩

/-- Concrete process environment whose instructions file is missing. -/
def noFileEnv : ProcEnv :=
  ⟨[("PROJECT_ENDPOINT", "https://example")], false, "", "tbl(id)", true, 2024, 5, 1⟩

/-- A template that contains both placeholder tokens yet, rendered with the
schema string `"base"`, still contains the schema placeholder afterwards:
replacing its inner schema placeholder by `"base"` reassembles an outer
occurrence of the schema placeholder out of surrounding template text. -/
def cexTemplate : String :=
  "\x7bdata\x7bdatabase_schema_string\x7d_schema_string\x7d\x7bcurrent_date\x7d"

theorem swallowAttr_error_ne (e : PyExc) (he : e ≠ PyExc.attributeError) :
    swallowAttr (Except.error e) = some e := by
  cases e <;> simp_all [swallowAttr]

/-- Claim C3: during cleanup, the only failure of the remote thread-delete
and agent-delete calls that is swallowed is `AttributeError`: an
`AttributeError` from either delete leaves `cleanup` behaving exactly as if
the delete had succeeded, and any other exception from either delete is not
tolerated (it propagates immediately). -/
theorem claim_C3 :
    (∀ aDel, pyCleanup (Except.error PyExc.attributeError) aDel = pyCleanup (Except.ok ()) aDel)
    ∧ (∀ tDel, pyCleanup tDel (Except.error PyExc.attributeError) = pyCleanup tDel (Except.ok ()))
    ∧ (∀ e aDel, e ≠ PyExc.attributeError →
        pyCleanup (Except.error e) aDel = ([CStep.delThread], some e))
    ∧ (∀ e, e ≠ PyExc.attributeError →
        pyCleanup (Except.ok ()) (Except.error e) =
          ([CStep.delThread, CStep.delAgent], some e)) := by
  refine ⟨fun aDel => rfl, fun tDel => rfl, fun e aDel he => ?_, fun e he => ?_⟩
  · simp [pyCleanup, swallowAttr_error_ne e he]
  · simp [pyCleanup, swallowAttr, swallowAttr_error_ne e he]

theorem claim_C3_witness :
    pyCleanup (Except.error PyExc.attributeError) (Except.ok ()) =
      pyCleanup (Except.ok ()) (Except.ok ())
    ∧ pyCleanup (Except.error (PyExc.other "socket closed")) (Except.ok ()) =
      ([CStep.delThread], some (PyExc.other "socket closed"))
    ∧ pyCleanup (Except.ok ()) (Except.error (PyExc.other "socket closed")) =
      ([CStep.delThread, CStep.delAgent], some (PyExc.other "socket closed")) :=
  ⟨claim_C3.1 _, claim_C3.2.2.1 _ _ (by decide), claim_C3.2.2.2 _ (by decide)⟩

/-- Claim C9: if the thread-delete call raises anything other than
`AttributeError`, that exception propagates out of `cleanup` and the agent
deletion, the database close and the client close are all skipped. -/
theorem claim_C9 (e : PyExc) (aDel : Except PyExc Unit)
    (he : e ≠ PyExc.attributeError) :
    pyCleanup (Except.error e) aDel = ([CStep.delThread], some e)
    ∧ CStep.delAgent ∉ (pyCleanup (Except.error e) aDel).fst
    ∧ CStep.closeDb ∉ (pyCleanup (Except.error e) aDel).fst
    ∧ CStep.closeClient ∉ (pyCleanup (Except.error e) aDel).fst := by
  have h : pyCleanup (Except.error e) aDel = ([CStep.delThread], some e) := by
    simp [pyCleanup, swallowAttr_error_ne e he]
  refine ⟨h, ?_, ?_, ?_⟩ <;> rw [h] <;> simp

theorem claim_C9_witness :
    pyCleanup (Except.error (PyExc.runtimeError "http 500")) (Except.ok ()) =
      ([CStep.delThread], some (PyExc.runtimeError "http 500"))
    ∧ CStep.delAgent ∉ (pyCleanup (Except.error (PyExc.runtimeError "http 500")) (Except.ok ())).fst
    ∧ CStep.closeDb ∉ (pyCleanup (Except.error (PyExc.runtimeError "http 500")) (Except.ok ())).fst
    ∧ CStep.closeClient ∉ (pyCleanup (Except.error (PyExc.runtimeError "http 500")) (Except.ok ())).fst :=
  claim_C9 _ _ (by decide)

/-- Claim C4: every per-turn failure — an exception from posting the user
message or from draining the response stream — is caught inside
`post_message`, logged, and `post_message` returns normally (`raised` is
always `none`); consequently the interactive loop goes on to the next
prompt after an ordinary line, with no retry of the failed turn. -/
theorem claim_C4 :
    (∀ cr sr, (postMessage cr sr).raised = none)
    ∧ (∀ e sr, postMessage (Except.error e) sr =
        ⟨["An error occurred posting the message: " ++ pyExcMsg e], none⟩)
    ∧ (∀ e, postMessage (Except.ok ()) (Except.error e) =
        ⟨["An error occurred posting the message: " ++ pyExcMsg e], none⟩)
    ∧ (∀ p rest, pyLower p ≠ "exit" → p ≠ "" →
        mainLoop (p :: rest) = ((p :: (mainLoop rest).fst), (mainLoop rest).snd)) := by
  refine ⟨fun cr sr => ?_, fun e sr => rfl, fun e => ?_, fun p rest h1 h2 => ?_⟩
  · cases cr with
    | error e => rfl
    | ok u => cases sr with
      | error e => rfl
      | ok u2 => rfl
  · cases e <;> rfl
  · simp [mainLoop, h1, h2]

theorem claim_C4_witness :
    (postMessage (Except.error (PyExc.other "connection reset")) (Except.ok ())).raised = none
    ∧ mainLoop ["show sales"] = ((("show sales") :: (mainLoop []).fst), (mainLoop []).snd) :=
  ⟨claim_C4.1 _ _, claim_C4.2.2.2 "show sales" [] (by decide) (by decide)⟩

/-- Claim C6: an input line equal to `"exit"` under `str.lower()` terminates
the interactive loop at once: nothing is posted for that line or any later
line, and `cleanup` is then performed (the `finally` block runs). -/
theorem claim_C6 (p : ProcEnv) (mc : ModuleConsts) (args : CreateAgentArgs)
    (line : String) (rest : List String)
    (hmod : moduleLoad p.osEnv = Except.ok mc)
    (hinit : (initAgent p mc).result = Except.ok args)
    (hexit : pyLower line = "exit") :
    mainLoop (line :: rest) = ([], true)
    ∧ runProgram p (line :: rest) = Except.ok ⟨true, [], true, true, false⟩ := by
  have hl : mainLoop (line :: rest) = ([], true) := by simp [mainLoop, hexit]
  exact ⟨hl, by simp [runProgram, hmod, hinit, hl]⟩

theorem claim_C6_witness :
    mainLoop ["EXIT", "more input"] = ([], true)
    ∧ runProgram witnessEnv ["EXIT", "more input"] = Except.ok ⟨true, [], true, true, false⟩ :=
  claim_C6 witnessEnv witnessConsts
    ⟨some "gpt", "Contoso Sales AI Agent", "Schema: tbl(id), Date: 2024-05-01",
      some TEMPERATURE, none, none, none⟩
    "EXIT" ["more input"] (by decide) rfl (by decide)

/-- Claim C7: an empty input line posts nothing and the loop immediately
re-prompts: the loop behaves on `"" :: rest` exactly as on `rest`. -/
theorem claim_C7 (rest : List String) : mainLoop ("" :: rest) = mainLoop rest := by
  have h1 : ¬ (pyLower "" = "exit") := by decide
  simp [mainLoop, h1]

/-- Claim C10: a line whose lowercasing is not exactly `"exit"` (for example
`" exit"` or `"exit "`) does not terminate the loop: if nonempty it is
posted as an ordinary message, and whether the loop later terminates is
decided by the remaining input alone. -/
theorem claim_C10 (p : String) (rest : List String)
    (h1 : pyLower p ≠ "exit") (h2 : p ≠ "") :
    mainLoop (p :: rest) = ((p :: (mainLoop rest).fst), (mainLoop rest).snd)
    ∧ (mainLoop (p :: rest)).snd = (mainLoop rest).snd
    ∧ p ∈ (mainLoop (p :: rest)).fst := by
  have h : mainLoop (p :: rest) = ((p :: (mainLoop rest).fst), (mainLoop rest).snd) := by
    simp [mainLoop, h1, h2]
  exact ⟨h, by rw [h], by rw [h]; exact List.mem_cons_self _ _⟩

theorem claim_C10_witness :
    mainLoop [" exit"] = (((" exit") :: (mainLoop []).fst), (mainLoop []).snd)
    ∧ (mainLoop [" exit"]).snd = (mainLoop []).snd
    ∧ " exit" ∈ (mainLoop [" exit"]).fst :=
  claim_C10 " exit" [] (by decide) (by decide)

/-- Claim C8: `PROJECT_ENDPOINT` is required — when absent, module import
raises `KeyError` and the whole run fails before `main`; the
model-deployment name is optional — module import succeeds whatever
`MODEL_DEPLOYMENT_NAME` holds, recording its (possibly absent) value; and
the `ENVIRONMENT` tag is optional with default `"local"`. -/
theorem claim_C8 (osEnv : List (String × String)) (p : ProcEnv)
    (mc : ModuleConsts) (inputs : List String) :
    (osEnv = p.osEnv → lookupEnv osEnv "PROJECT_ENDPOINT" = none →
      moduleLoad osEnv = Except.error (PyExc.keyError "PROJECT_ENDPOINT")
      ∧ runProgram p inputs = Except.error (PyExc.keyError "PROJECT_ENDPOINT"))
    ∧ (∀ ep, lookupEnv osEnv "PROJECT_ENDPOINT" = some ep →
      moduleLoad osEnv = Except.ok ⟨lookupEnv osEnv "MODEL_DEPLOYMENT_NAME", ep⟩)
    ∧ (lookupEnv p.osEnv "ENVIRONMENT" = none → (initAgent p mc).envTag = "local") := by
  refine ⟨fun hosEq habs => ?_, fun ep hep => ?_, fun henv => ?_⟩
  · have hm : moduleLoad osEnv = Except.error (PyExc.keyError "PROJECT_ENDPOINT") := by
      simp [moduleLoad, habs]
    exact ⟨hm, by rw [hosEq] at hm; simp [runProgram, hm]⟩
  · simp [moduleLoad, hep]
  · simp only [initAgent, henv, Option.getD_none]
    split
    · rfl
    · split <;> rfl

theorem claim_C8_witness :
    (moduleLoad [] = Except.error (PyExc.keyError "PROJECT_ENDPOINT")
     ∧ runProgram noEndpointEnv [] = Except.error (PyExc.keyError "PROJECT_ENDPOINT"))
    ∧ moduleLoad [("PROJECT_ENDPOINT", "https://example")] =
      Except.ok ⟨lookupEnv [("PROJECT_ENDPOINT", "https://example")] "MODEL_DEPLOYMENT_NAME",
        "https://example"⟩
    ∧ (initAgent noEndpointEnv ⟨none, "https://example"⟩).envTag = "local" :=
  ⟨(claim_C8 [] noEndpointEnv ⟨none, "https://example"⟩ []).1 rfl (by decide),
   (claim_C8 [("PROJECT_ENDPOINT", "https://example")] noEndpointEnv
      ⟨none, "https://example"⟩ []).2.1 "https://example" (by decide),
   (claim_C8 [] noEndpointEnv ⟨none, "https://example"⟩ []).2.2 (by decide)⟩

/-- Claim C5: when the instructions template file is missing at its
resolved path, `initialize` raises `FileNotFoundError`, logs the error, and
`main` catches it, logs, and returns without entering the interactive loop
and without retrying: nothing is posted and no cleanup attempt is made. -/
theorem claim_C5 (p : ProcEnv) (mc : ModuleConsts) (inputs : List String)
    (hf : p.instructionsFileIsFile = false)
    (hm : moduleLoad p.osEnv = Except.ok mc) :
    (initAgent p mc).result = Except.error (PyExc.fileNotFoundError "Instructions file not found")
    ∧ (initAgent p mc).loggedErrors =
      ["An error occurred initializing the agent: Instructions file not found",
       "Please ensure the instructions file exists and the database is accessible."]
    ∧ runProgram p inputs = Except.ok ⟨false, [], false, false, true⟩ := by
  have h1 : (initAgent p mc).result =
      Except.error (PyExc.fileNotFoundError "Instructions file not found") := by
    simp [initAgent, hf]
  refine ⟨h1, by simp [initAgent, hf], by simp [runProgram, hm, h1]⟩

theorem claim_C5_witness :
    (initAgent noFileEnv ⟨none, "https://example"⟩).result =
      Except.error (PyExc.fileNotFoundError "Instructions file not found")
    ∧ (initAgent noFileEnv ⟨none, "https://example"⟩).loggedErrors =
      ["An error occurred initializing the agent: Instructions file not found",
       "Please ensure the instructions file exists and the database is accessible."]
    ∧ runProgram noFileEnv ["sales by region"] = Except.ok ⟨false, [], false, false, true⟩ :=
  claim_C5 noFileEnv ⟨none, "https://example"⟩ ["sales by region"] rfl (by decide)

/-- Claim C1 fails on the code: at a concrete, fully healthy environment the
agent-creation call receives `temperature = 0.1` but receives no `top_p`,
no `max_prompt_tokens` and no `max_completion_tokens` keyword at all
(`main.py:118-125` passes only `model`, `name`, `instructions`, `toolset`
and `temperature`). -/
theorem claim_C1_counterexample :
    ((initAgent witnessEnv witnessConsts).result.toOption.map
      (fun a => (a.top_p, a.max_prompt_tokens, a.max_completion_tokens))) =
      some (none, none, none)
    ∧ ((initAgent witnessEnv witnessConsts).result.toOption.map
      (fun a => a.temperature)) = some (some TEMPERATURE) :=
  ⟨rfl, rfl⟩

/-- Claim C1 amended: whenever `initialize` reaches the agent-creation call
(instructions file present, database connection available), it passes
sampling parameter `temperature = 0.1`; the constants `TOP_P = 0.1`,
`MAX_PROMPT_TOKENS = 10240` and `MAX_COMPLETION_TOKENS = 4096` are defined
at module level but are not passed in the agent-creation call. -/
theorem claim_C1_amended (p : ProcEnv) (mc : ModuleConsts)
    (h1 : p.instructionsFileIsFile = true) (h2 : p.dbConnAvailable = true) :
    (initAgent p mc).result = Except.ok
      ⟨mc.apiDeploymentName, "Contoso Sales AI Agent",
        renderInstructions p.instructionsContent p.schemaString p.todayY p.todayM p.todayD,
        some TEMPERATURE, none, none, none⟩
    ∧ TEMPERATURE = 1/10 ∧ TOP_P = 1/10
    ∧ MAX_PROMPT_TOKENS = 10240 ∧ MAX_COMPLETION_TOKENS = 4096 := by
  refine ⟨by simp [initAgent, h1, h2], by norm_num [TEMPERATURE], by norm_num [TOP_P], rfl, rfl⟩

theorem claim_C1_amended_witness :
    (initAgent witnessEnv witnessConsts).result = Except.ok
      ⟨(witnessConsts).apiDeploymentName, "Contoso Sales AI Agent",
        renderInstructions witnessEnv.instructionsContent witnessEnv.schemaString
          witnessEnv.todayY witnessEnv.todayM witnessEnv.todayD,
        some TEMPERATURE, none, none, none⟩
    ∧ TEMPERATURE = 1/10 ∧ TOP_P = 1/10
    ∧ MAX_PROMPT_TOKENS = 10240 ∧ MAX_COMPLETION_TOKENS = 4096 :=
  claim_C1_amended witnessEnv witnessConsts rfl rfl

/-- Claim C2 fails on the code: `cexTemplate` contains both placeholder
tokens, yet rendering it with schema string `"base"` produces a string that
still contains the schema placeholder token, because the substitution glues
template text around the replacement into a fresh occurrence. -/
theorem claim_C2_counterexample :
    dbSchemaPlaceholder.data <:+: cexTemplate.data
    ∧ currentDatePlaceholder.data <:+: cexTemplate.data
    ∧ dbSchemaPlaceholder.data <:+: (renderInstructions cexTemplate "base" 2024 5 1).data := by
  refine ⟨by decide, by decide, by decide⟩

theorem replaceGo_nil (pat rep : List Char) (f : Nat) : replaceGo pat rep f [] = [] := by
  cases f <;> rfl

theorem replaceGo_fuel (pat rep : List Char) (hp : pat ≠ []) :
    ∀ f g s, s.length ≤ f → s.length ≤ g →
      replaceGo pat rep f s = replaceGo pat rep g s := by
  intro f
  induction f with
  | zero =>
    intro g s hf _
    have hnil : s = [] := List.eq_nil_of_length_eq_zero (Nat.le_zero.mp hf)
    subst hnil
    rw [replaceGo_nil, replaceGo_nil]
  | succ f ih =>
    intro g s hf hg
    cases s with
    | nil => rw [replaceGo_nil, replaceGo_nil]
    | cons c t =>
      cases g with
      | zero => simp at hg
      | succ g =>
        have hf' : t.length ≤ f := by simpa using hf
        have hg' : t.length ≤ g := by simpa using hg
        have hplen : 1 ≤ pat.length := by
          cases pat with
          | nil => exact absurd rfl hp
          | cons p0 pt => simp
        simp only [replaceGo]
        by_cases hpre : pat.isPrefixOf (c :: t) = true
        · simp only [if_pos hpre]
          have hdl : ((c :: t).length - pat.length) ≤ t.length := by simp; omega
          rw [ih g ((c :: t).drop pat.length)
            (by rw [List.length_drop]; omega) (by rw [List.length_drop]; omega)]
        · simp only [if_neg hpre]
          rw [ih g t hf' hg']

theorem replaceAll_pos (pat rep s : List Char) (hp : pat ≠ [])
    (h : pat.isPrefixOf s = true) :
    replaceAll s pat rep = rep ++ replaceAll (s.drop pat.length) pat rep := by
  cases s with
  | nil =>
    cases pat with
    | nil => exact absurd rfl hp
    | cons p0 pt => simp [List.isPrefixOf] at h
  | cons c t =>
    have hplen : 1 ≤ pat.length := by
      cases pat with
      | nil => exact absurd rfl hp
      | cons p0 pt => simp
    show replaceGo pat rep (t.length + 1) (c :: t) = _
    simp only [replaceGo, if_pos h]
    exact congrArg (rep ++ ·)
      (replaceGo_fuel pat rep hp t.length ((c :: t).drop pat.length).length _
        (by rw [List.length_drop]; simp; omega) le_rfl)

theorem replaceAll_neg (pat rep : List Char) (c : Char) (t : List Char)
    (h : ¬ pat.isPrefixOf (c :: t) = true) :
    replaceAll (c :: t) pat rep = c :: replaceAll t pat rep := by
  show replaceGo pat rep (t.length + 1) (c :: t) = _
  simp only [replaceGo, if_neg h]
  rfl

theorem not_isPrefixOf_cons_of_head (pat : List Char) (c : Char) (l : List Char)
    (hp : pat.head? = some lbrace) (hc : c ≠ lbrace) :
    ¬ pat.isPrefixOf (c :: l) = true := by
  intro hcon
  cases pat with
  | nil => simp at hp
  | cons p0 pt =>
    have h0 : p0 = lbrace := by simpa using hp
    have h1 : p0 = c := (List.cons_prefix_cons.mp (List.isPrefixOf_iff_prefix.mp hcon)).1
    exact hc (h1 ▸ h0)

theorem replaceAll_append (pat rep u v : List Char) (hp : pat.head? = some lbrace)
    (hu : lbrace ∉ u) : replaceAll (u ++ v) pat rep = u ++ replaceAll v pat rep := by
  induction u with
  | nil => simp
  | cons c u' ih =>
    simp only [List.mem_cons, not_or] at hu
    have hcne : c ≠ lbrace := fun h => hu.1 h.symm
    have hnp := not_isPrefixOf_cons_of_head pat c (u' ++ v) hp hcne
    rw [List.cons_append, replaceAll_neg pat rep c (u' ++ v) hnp, ih hu.2, List.cons_append]

theorem infix_of_infix_append (p q rest : List Char)
    (h : q <:+: p ++ rest) (hpt : lbrace ∉ p.drop 1) (hq0 : q.head? = some lbrace)
    (htk : q.take 2 ≠ p.take 2) (hlp : 2 ≤ p.length) (hlq : 2 ≤ q.length) :
    q <:+: rest := by
  obtain ⟨u, v, huv⟩ := h
  have huv' : u ++ (q ++ v) = p ++ rest := by rw [← List.append_assoc]; exact huv
  by_cases hle : p.length ≤ u.length
  · have hL : List.drop p.length (u ++ (q ++ v)) = List.drop p.length u ++ (q ++ v) := by
      rw [List.drop_append_eq_append_drop, Nat.sub_eq_zero_of_le hle, List.drop_zero]
    have h2 : List.drop p.length u ++ (q ++ v) = rest := by
      calc List.drop p.length u ++ (q ++ v)
          = List.drop p.length (u ++ (q ++ v)) := hL.symm
        _ = List.drop p.length (p ++ rest) := by rw [huv']
        _ = rest := List.drop_left p rest
    exact ⟨u.drop p.length, v, by rw [List.append_assoc]; exact h2⟩
  · push_neg at hle
    exfalso
    cases u with
    | nil =>
      simp only [List.nil_append] at huv'
      have hql : List.take 2 (q ++ v) = List.take 2 q := by
        rw [List.take_append_eq_append_take, Nat.sub_eq_zero_of_le hlq,
          List.take_zero, List.append_nil]
      have hpl : List.take 2 (p ++ rest) = List.take 2 p := by
        rw [List.take_append_eq_append_take, Nat.sub_eq_zero_of_le hlp,
          List.take_zero, List.append_nil]
      exact htk (by rw [← hql, huv', hpl])
    | cons c u' =>
      cases q with
      | nil => simp at hq0
      | cons q0 qt =>
        have hq0' : q0 = lbrace := by simpa using hq0
        subst hq0'
        cases p with
        | nil => simp at hlp
        | cons p0 pt =>
          have hinj : u' ++ (lbrace :: qt ++ v) = pt ++ rest := by
            have h0 := huv'
            simp only [List.cons_append] at h0
            exact (List.cons.injEq _ _ _ _).mp h0 |>.2
          have hulen : u'.length < pt.length := by
            have h0 := hle
            simp only [List.length_cons] at h0
            omega
          have hinj' : u' ++ (lbrace :: (qt ++ v)) = pt ++ rest := by
            simpa [List.cons_append] using hinj
          have h3 := congrArg (List.take (u'.length + 1)) hinj'
          rw [List.take_append_eq_append_take,
            List.take_of_length_le (by omega), Nat.add_sub_cancel_left] at h3
          have ht1 : List.take 1 (lbrace :: (qt ++ v)) = [lbrace] := rfl
          rw [ht1] at h3
          rw [List.take_append_eq_append_take,
            (by omega : (u'.length + 1) - pt.length = 0),
            List.take_zero, List.append_nil] at h3
          have hmem : lbrace ∈ pt.take (u'.length + 1) := by
            rw [← h3]
            exact List.mem_append_right _ (List.mem_singleton.mpr rfl)
          have hmem' : lbrace ∈ pt := List.take_subset _ _ hmem
          have hfin : lbrace ∈ (p0 :: pt).drop 1 := by simpa using hmem'
          exact hpt hfin

theorem digitChar_ne_lbrace (n : Nat) : digitChar (n % 10) ≠ lbrace := by
  have h10 : n % 10 < 10 := Nat.mod_lt _ (by norm_num)
  set k := n % 10 with hk
  interval_cases k <;> decide

theorem natStrGo_no_lbrace (fuel : Nat) :
    ∀ (n : Nat) (acc : List Char), lbrace ∉ acc → lbrace ∉ natStrGo fuel n acc := by
  induction fuel with
  | zero => intro n acc hacc; exact hacc
  | succ fuel ih =>
    intro n acc hacc
    simp only [natStrGo]
    by_cases hn : n = 0
    · simp [hn, hacc]
    · simp only [if_neg hn]
      apply ih
      simp only [List.mem_cons, not_or]
      exact ⟨fun h => digitChar_ne_lbrace n h.symm, hacc⟩

theorem natStr_no_lbrace (n : Nat) : lbrace ∉ natStr n := by
  by_cases hn : n = 0
  · simp [natStr, hn]; decide
  · simp only [natStr, if_neg hn]
    exact natStrGo_no_lbrace n n [] (by simp)

theorem padNum_no_lbrace (w n : Nat) : lbrace ∉ padNum w n := by
  simp only [padNum, List.mem_append, not_or]
  refine ⟨fun h => ?_, natStr_no_lbrace n⟩
  have := (List.eq_of_mem_replicate h)
  exact absurd this (by decide)

theorem strftimeYmd_no_lbrace (y m d : Nat) : lbrace ∉ (strftimeYmd y m d).data := by
  show lbrace ∉ padNum 4 y ++ '-' :: (padNum 2 m ++ '-' :: padNum 2 d)
  simp only [List.mem_append, List.mem_cons, not_or]
  exact ⟨padNum_no_lbrace 4 y, by decide, padNum_no_lbrace 2 m, by decide, padNum_no_lbrace 2 d⟩

theorem renderAll_spec :
    ∀ (n : Nat) (s schema dStr : List Char), s.length ≤ n →
    (∀ i, i < s.length → (s.drop i).head? = some lbrace →
       dbSchemaPlaceholder.data.isPrefixOf (s.drop i) = true
       ∨ currentDatePlaceholder.data.isPrefixOf (s.drop i) = true) →
    lbrace ∉ schema → lbrace ∉ dStr →
    lbrace ∉ replaceAll (replaceAll s dbSchemaPlaceholder.data schema)
      currentDatePlaceholder.data dStr
    ∧ (dbSchemaPlaceholder.data <:+: s →
        schema <:+: replaceAll (replaceAll s dbSchemaPlaceholder.data schema)
          currentDatePlaceholder.data dStr)
    ∧ (currentDatePlaceholder.data <:+: s →
        dStr <:+: replaceAll (replaceAll s dbSchemaPlaceholder.data schema)
          currentDatePlaceholder.data dStr) := by
  intro n
  induction n with
  | zero =>
    intro s schema dStr hlen H hbs hbd
    have hs : s = [] := List.eq_nil_of_length_eq_zero (Nat.le_zero.mp hlen)
    subst hs
    have h0 : replaceAll (replaceAll [] dbSchemaPlaceholder.data schema)
        currentDatePlaceholder.data dStr = [] := rfl
    rw [h0]
    refine ⟨by simp, fun h => ?_, fun h => ?_⟩
    · exact absurd h.length_le (by decide)
    · exact absurd h.length_le (by decide)
  | succ n ih =>
    intro s schema dStr hlen H hbs hbd
    cases s with
    | nil =>
      have h0 : replaceAll (replaceAll [] dbSchemaPlaceholder.data schema)
          currentDatePlaceholder.data dStr = [] := rfl
      rw [h0]
      refine ⟨by simp, fun h => ?_, fun h => ?_⟩
      · exact absurd h.length_le (by decide)
      · exact absurd h.length_le (by decide)
    | cons c t =>
      by_cases hpre1 : dbSchemaPlaceholder.data.isPrefixOf (c :: t) = true
      · -- the schema placeholder starts here
        have hP1ne : dbSchemaPlaceholder.data ≠ [] := by decide
        set rest := (c :: t).drop dbSchemaPlaceholder.data.length with hrestdef
        have hsplit : dbSchemaPlaceholder.data ++ rest = c :: t := by
          rw [hrestdef]
          exact List.prefix_iff_eq_append.mp (List.isPrefixOf_iff_prefix.mp hpre1)
        have r1 : replaceAll (c :: t) dbSchemaPlaceholder.data schema
            = schema ++ replaceAll rest dbSchemaPlaceholder.data schema := by
          rw [hrestdef]
          exact replaceAll_pos _ _ _ hP1ne hpre1
        have r2 : replaceAll (schema ++ replaceAll rest dbSchemaPlaceholder.data schema)
              currentDatePlaceholder.data dStr
            = schema ++ replaceAll (replaceAll rest dbSchemaPlaceholder.data schema)
              currentDatePlaceholder.data dStr :=
          replaceAll_append _ _ _ _ (by decide) hbs
        have hlensum := congrArg List.length hsplit
        have hlenrest : rest.length ≤ n := by
          simp only [List.length_append, List.length_cons] at hlensum
          have h24 : dbSchemaPlaceholder.data.length = 24 := by decide
          simp only [List.length_cons] at hlen
          omega
        have Hrest : ∀ i, i < rest.length → (rest.drop i).head? = some lbrace →
            dbSchemaPlaceholder.data.isPrefixOf (rest.drop i) = true
            ∨ currentDatePlaceholder.data.isPrefixOf (rest.drop i) = true := by
          intro i hi hh
          have hdrop : rest.drop i = (c :: t).drop (dbSchemaPlaceholder.data.length + i) := by
            rw [← hsplit, List.drop_append_eq_append_drop,
              List.drop_eq_nil_of_le (Nat.le_add_right _ _),
              Nat.add_sub_cancel_left, List.nil_append]
          have hlt : dbSchemaPlaceholder.data.length + i < (c :: t).length := by
            simp only [List.length_append] at hlensum
            omega
          have hmain := H (dbSchemaPlaceholder.data.length + i) hlt (by rw [← hdrop]; exact hh)
          rw [← hdrop] at hmain
          exact hmain
        obtain ⟨ihb, ihs, ihd⟩ := ih rest schema dStr hlenrest Hrest hbs hbd
        rw [r1, r2]
        refine ⟨?_, fun _ => ?_, fun h2 => ?_⟩
        · simp only [List.mem_append, not_or]
          exact ⟨hbs, ihb⟩
        · exact (List.prefix_append schema _).isInfix
        · have h3 : currentDatePlaceholder.data <:+: rest := by
            apply infix_of_infix_append dbSchemaPlaceholder.data currentDatePlaceholder.data rest
            · rw [hsplit]; exact h2
            · decide
            · decide
            · decide
            · decide
            · decide
          exact (ihd h3).trans ⟨schema, [], by simp⟩
      · by_cases hc : c = lbrace
        · -- head is a brace: the date placeholder must start here
          have hH0 : dbSchemaPlaceholder.data.isPrefixOf (c :: t) = true
              ∨ currentDatePlaceholder.data.isPrefixOf (c :: t) = true := by
            have h0 := H 0 (by simp) (by simp [hc])
            simpa using h0
          rcases hH0 with h1 | hpre2
          · exact absurd h1 hpre1
          have hP2ne : currentDatePlaceholder.data ≠ [] := by decide
          set rest := (c :: t).drop currentDatePlaceholder.data.length with hrestdef
          have hsplit : currentDatePlaceholder.data ++ rest = c :: t := by
            rw [hrestdef]
            exact List.prefix_iff_eq_append.mp (List.isPrefixOf_iff_prefix.mp hpre2)
          have hP2cons : currentDatePlaceholder.data
              = lbrace :: currentDatePlaceholder.data.drop 1 := by decide
          have ht : t = currentDatePlaceholder.data.drop 1 ++ rest := by
            have h0 := hsplit
            rw [hP2cons, List.cons_append] at h0
            exact (((List.cons.injEq _ _ _ _).mp h0).2).symm
          have r1 : replaceAll (c :: t) dbSchemaPlaceholder.data schema
              = currentDatePlaceholder.data
                ++ replaceAll rest dbSchemaPlaceholder.data schema := by
            rw [replaceAll_neg _ _ _ _ hpre1, ht,
              replaceAll_append _ _ _ _ (by decide) (by decide), hc,
              ← List.cons_append, ← hP2cons]
          have hpreP2 : currentDatePlaceholder.data.isPrefixOf
              (currentDatePlaceholder.data
                ++ replaceAll rest dbSchemaPlaceholder.data schema) = true :=
            List.isPrefixOf_iff_prefix.mpr (List.prefix_append _ _)
          have r2 : replaceAll (currentDatePlaceholder.data
                ++ replaceAll rest dbSchemaPlaceholder.data schema)
                currentDatePlaceholder.data dStr
              = dStr ++ replaceAll (replaceAll rest dbSchemaPlaceholder.data schema)
                currentDatePlaceholder.data dStr := by
            rw [replaceAll_pos _ _ _ hP2ne hpreP2, List.drop_left]
          have hlensum := congrArg List.length hsplit
          have hlenrest : rest.length ≤ n := by
            simp only [List.length_append, List.length_cons] at hlensum
            have h14 : currentDatePlaceholder.data.length = 14 := by decide
            simp only [List.length_cons] at hlen
            omega
          have Hrest : ∀ i, i < rest.length → (rest.drop i).head? = some lbrace →
              dbSchemaPlaceholder.data.isPrefixOf (rest.drop i) = true
              ∨ currentDatePlaceholder.data.isPrefixOf (rest.drop i) = true := by
            intro i hi hh
            have hdrop : rest.drop i = (c :: t).drop (currentDatePlaceholder.data.length + i) := by
              rw [← hsplit, List.drop_append_eq_append_drop,
                List.drop_eq_nil_of_le (Nat.le_add_right _ _),
                Nat.add_sub_cancel_left, List.nil_append]
            have hlt : currentDatePlaceholder.data.length + i < (c :: t).length := by
              simp only [List.length_append] at hlensum
              omega
            have hmain := H (currentDatePlaceholder.data.length + i) hlt
              (by rw [← hdrop]; exact hh)
            rw [← hdrop] at hmain
            exact hmain
          obtain ⟨ihb, ihs, ihd⟩ := ih rest schema dStr hlenrest Hrest hbs hbd
          rw [r1, r2]
          refine ⟨?_, fun h2 => ?_, fun _ => ?_⟩
          · simp only [List.mem_append, not_or]
            exact ⟨hbd, ihb⟩
          · have h3 : dbSchemaPlaceholder.data <:+: rest := by
              apply infix_of_infix_append currentDatePlaceholder.data dbSchemaPlaceholder.data rest
              · rw [hsplit]; exact h2
              · decide
              · decide
              · decide
              · decide
              · decide
            exact (ihs h3).trans ⟨dStr, [], by simp⟩
          · exact (List.prefix_append dStr _).isInfix
        · -- ordinary character
          have r1 : replaceAll (c :: t) dbSchemaPlaceholder.data schema
              = c :: replaceAll t dbSchemaPlaceholder.data schema :=
            replaceAll_neg _ _ _ _ hpre1
          have hpre2' : ¬ currentDatePlaceholder.data.isPrefixOf
              (c :: replaceAll t dbSchemaPlaceholder.data schema) = true :=
            not_isPrefixOf_cons_of_head _ _ _ (by decide) hc
          have r2 : replaceAll (c :: replaceAll t dbSchemaPlaceholder.data schema)
                currentDatePlaceholder.data dStr
              = c :: replaceAll (replaceAll t dbSchemaPlaceholder.data schema)
                currentDatePlaceholder.data dStr :=
            replaceAll_neg _ _ _ _ hpre2'
          have hlent : t.length ≤ n := by simpa using hlen
          have Ht : ∀ i, i < t.length → (t.drop i).head? = some lbrace →
              dbSchemaPlaceholder.data.isPrefixOf (t.drop i) = true
              ∨ currentDatePlaceholder.data.isPrefixOf (t.drop i) = true := by
            intro i hi hh
            have hdrop : t.drop i = (c :: t).drop (i + 1) := (List.drop_succ_cons).symm
            rw [hdrop] at hh
            have hmain := H (i + 1) (by simpa using Nat.succ_lt_succ hi) hh
            rw [← hdrop] at hmain
            exact hmain
          obtain ⟨ihb, ihs, ihd⟩ := ih t schema dStr hlent Ht hbs hbd
          rw [r1, r2]
          refine ⟨?_, fun h2 => ?_, fun h2 => ?_⟩
          · simp only [List.mem_cons, not_or]
            exact ⟨fun h => hc h.symm, ihb⟩
          · rcases List.infix_cons_iff.mp h2 with hpfx | hinf
            · exact absurd (List.isPrefixOf_iff_prefix.mpr hpfx)
                (not_isPrefixOf_cons_of_head _ _ _ (by decide) hc)
            · exact List.infix_cons (ihs hinf)
          · rcases List.infix_cons_iff.mp h2 with hpfx | hinf
            · exact absurd (List.isPrefixOf_iff_prefix.mpr hpfx)
                (not_isPrefixOf_cons_of_head _ _ _ (by decide) hc)
            · exact List.infix_cons (ihd hinf)

/-- Claim C2 amended: for every instructions template containing both
placeholder tokens, provided every left brace in the template begins one of
the two placeholder tokens and the database schema string contains no left
brace, the instructions string produced by `initialize` contains neither
placeholder token, contains the literal schema string, and contains today's
date formatted `YYYY-MM-DD`.  (Without the two provisos the property fails,
see the counterexample: the two plain-text replacements can reassemble or
destroy a placeholder occurrence.) -/
theorem claim_C2_amended (template schemaStr : String) (y m d : Nat)
    (hT1 : dbSchemaPlaceholder.data <:+: template.data)
    (hT2 : currentDatePlaceholder.data <:+: template.data)
    (hH : ∀ i, i < template.data.length → (template.data.drop i).head? = some lbrace →
       dbSchemaPlaceholder.data.isPrefixOf (template.data.drop i) = true
       ∨ currentDatePlaceholder.data.isPrefixOf (template.data.drop i) = true)
    (hS : lbrace ∉ schemaStr.data) :
    ¬ dbSchemaPlaceholder.data <:+: (renderInstructions template schemaStr y m d).data
    ∧ ¬ currentDatePlaceholder.data <:+: (renderInstructions template schemaStr y m d).data
    ∧ schemaStr.data <:+: (renderInstructions template schemaStr y m d).data
    ∧ (strftimeYmd y m d).data <:+: (renderInstructions template schemaStr y m d).data := by
  have hdata : (renderInstructions template schemaStr y m d).data
      = replaceAll (replaceAll template.data dbSchemaPlaceholder.data schemaStr.data)
        currentDatePlaceholder.data (strftimeYmd y m d).data := rfl
  obtain ⟨hb, hs2, hd2⟩ := renderAll_spec template.data.length template.data schemaStr.data
    (strftimeYmd y m d).data le_rfl hH hS (strftimeYmd_no_lbrace y m d)
  rw [hdata]
  refine ⟨fun h => ?_, fun h => ?_, hs2 hT1, hd2 hT2⟩
  · exact hb (h.sublist.subset (by decide : lbrace ∈ dbSchemaPlaceholder.data))
  · exact hb (h.sublist.subset (by decide : lbrace ∈ currentDatePlaceholder.data))

theorem claim_C2_amended_witness :
    ¬ dbSchemaPlaceholder.data <:+:
      (renderInstructions "Schema: \x7bdatabase_schema_string\x7d, Date: \x7bcurrent_date\x7d"
        "tbl(id)" 2024 5 1).data
    ∧ ¬ currentDatePlaceholder.data <:+:
      (renderInstructions "Schema: \x7bdatabase_schema_string\x7d, Date: \x7bcurrent_date\x7d"
        "tbl(id)" 2024 5 1).data
    ∧ ("tbl(id)" : String).data <:+:
      (renderInstructions "Schema: \x7bdatabase_schema_string\x7d, Date: \x7bcurrent_date\x7d"
        "tbl(id)" 2024 5 1).data
    ∧ (strftimeYmd 2024 5 1).data <:+:
      (renderInstructions "Schema: \x7bdatabase_schema_string\x7d, Date: \x7bcurrent_date\x7d"
        "tbl(id)" 2024 5 1).data :=
  claim_C2_amended "Schema: \x7bdatabase_schema_string\x7d, Date: \x7bcurrent_date\x7d"
    "tbl(id)" 2024 5 1 (by decide) (by decide) (by decide) (by decide)
